import Mathlib

/-!
Verification of the openclaw-acp seller runtime: the job lifecycle
controller (src/seller/runtime/seller.ts), the standalone job processor
(src/seller/process-job.ts) and the offering validation of the sell CLI
(src/unnamed/part_002).  JavaScript values carried in parsed JSON are
modelled by the inductive `Json` below; numbers are modelled as integers
(the code only ever compares them with 0).  Thrown exceptions are modelled
with `Except String`, carrying the message of the thrown error.
-/

namespace OpenClawAcp

/-- JSON-like JavaScript values appearing in parsed offering descriptors,
job contexts and memo payloads.  Arrays are omitted: no code path under
verification ever produces or branches on an array value. -/
inductive Json
  | null
  | bool (b : Bool)
  | num (n : Int)
  | str (s : String)
  | obj (fields : List (String × Json))
deriving Repr

/-- JavaScript truthiness of a possibly-absent (undefined) value:
undefined, null, false, 0 and the empty string are falsy. -/
def jsTruthy : Option Json → Bool
  | none => false
  | some Json.null => false
  | some (Json.bool b) => b
  | some (Json.num n) => n != 0
  | some (Json.str s) => s != ""
  | some (Json.obj _) => true

/-- The check `v === undefined || v === null` on a field value. -/
def isNullish : Option Json → Bool
  | none => true
  | some Json.null => true
  | _ => false

/-- The check `typeof v === "string"` (false for an absent field). -/
def isStr : Option Json → Bool
  | some (Json.str _) => true
  | _ => false

/-- The check `typeof v === "number"` (false for an absent field). -/
def isNum : Option Json → Bool
  | some (Json.num _) => true
  | _ => false

/-- The check `typeof v === "boolean"` (false for an absent field). -/
def isBool : Option Json → Bool
  | some (Json.bool _) => true
  | _ => false

/-- JavaScript String.prototype.trim: strip leading and trailing
whitespace.  Defined by list recursion so that it evaluates by kernel
reduction. -/
def jsTrim (s : String) : String :=
  String.mk
    (((s.data.dropWhile Char.isWhitespace).reverse.dropWhile
        Char.isWhitespace).reverse)

/-- The check `v.trim() === ""` on a field already known to be a string. -/
def trimEmpty : Option Json → Bool
  | some (Json.str s) => jsTrim s == ""
  | _ => false

/-- The check `v < 0` on a field already known to be a number. -/
def numNeg : Option Json → Bool
  | some (Json.num n) => n < 0
  | _ => false

/-- Field lookup on a parsed JSON object, `json.k`: none models undefined. -/
def jget (fields : List (String × Json)) (k : String) : Option Json :=
  fields.lookup k

-- ── ACP job events (seller/runtime/seller.ts, seller/runtime/types.ts) ──────

/-- Job phases of the ACP protocol.  The enum module
(seller/runtime/types.ts) is not among the sources; its members are the
ones the runtime uses and the spec lists. -/
inductive AcpJobPhase
  | REQUEST
  | NEGOTIATION
  | TRANSACTION
  | EVALUATION
  | COMPLETED
  | REJECTED
  | EXPIRED
deriving DecidableEq, Repr

/-- A memo attached to a job event; only the fields the controller reads. -/
structure AcpMemoData where
  nextPhase : AcpJobPhase
  content : Option String
deriving DecidableEq, Repr

/-- The context object of a job event; only the fields the controller
reads.  Absent fields are none. -/
structure AcpJobContext where
  jobOfferingName : Option String
  offeringName : Option String
  serviceRequirements : Option Json
deriving Repr

/-- A job event as delivered by the transport. -/
structure AcpJobEventData where
  id : Nat
  phase : AcpJobPhase
  clientAddress : String
  price : Int
  context : Option AcpJobContext
  memos : List AcpMemoData
deriving Repr

/-- resolveOfferingName from seller/runtime/seller.ts: the offering name is
read from `context.jobOfferingName` with `context.offeringName` as second
choice; memos are not consulted. -/
def resolveOfferingName (data : AcpJobEventData) : Option String :=
  match data.context with
  | none => none
  | some c =>
    match c.jobOfferingName with
    | some n => some n
    | none => c.offeringName

/-- resolveServiceRequirements from seller/runtime/seller.ts.  `parse`
models `JSON.parse` on a memo content string: none when parsing throws.
The context field is used when truthy; otherwise the first memo whose
nextPhase is NEGOTIATION is consulted; otherwise the empty object. -/
def resolveServiceRequirements (parse : String → Option Json)
    (data : AcpJobEventData) : Json :=
  let ctxReq := data.context.bind (fun c => c.serviceRequirements)
  if jsTruthy ctxReq then ctxReq.getD (Json.obj [])
  else
    match data.memos.find? (fun m => m.nextPhase == AcpJobPhase.NEGOTIATION) with
    | some m =>
      match m.content with
      | some content =>
        if content != "" then
          match parse content with
          | some v => v
          | none => Json.obj [("raw", Json.str content)]
        else Json.obj []
      | none => Json.obj []
    | none => Json.obj []

-- ── Offerings and handler sets ──────────────────────────────────────────────

/-- An offering descriptor after load (interface OfferingConfig). -/
structure OfferingConfig where
  name : String
  description : String
  jobFee : Int
  requiredFunds : Bool
deriving DecidableEq, Repr

/-- The value returned by a requestAdditionalFunds handler. -/
structure FundsRequest where
  amount : Int
  ca : String
  symbol : String
deriving DecidableEq, Repr

/-- An optional on-delivery transfer instruction. -/
structure Transfer where
  ca : String
  amount : Int
deriving DecidableEq, Repr

/-- The value returned by an executeJob handler in the seller runtime
(interface ExecuteJobResult).  The deliverable is modelled as a string. -/
structure ExecuteJobResult where
  deliverable : String
  transfer : Option Transfer
deriving DecidableEq, Repr

/-- A loaded handler module as used by the seller runtime.  A capability
call that throws is modelled by Except.error carrying the message of the
thrown error; validateRequirements is boolean-returning user code. -/
structure Handlers where
  executeJob : Json → Except String ExecuteJobResult
  validateRequirements : Option (Json → Bool)
  requestAdditionalFunds : Option (Json → Except String FundsRequest)

-- ── The job lifecycle controller (seller/runtime/seller.ts) ─────────────────

/-- One protocol action sent to the action sink (sellerApi.ts), keyed by
job id. -/
inductive SellerAction
  | acceptOrReject (jobId : Nat) (accept : Bool) (reason : String)
  | requestPayment (jobId : Nat) (amount : Int) (ca : String) (mode : String)
  | deliver (jobId : Nat) (deliverable : String) (transfer : Option Transfer)
deriving DecidableEq, Repr

/-- Whether an action is a payment request. -/
def SellerAction.isPaymentRequest : SellerAction → Bool
  | SellerAction.requestPayment _ _ _ _ => true
  | _ => false

/-- Whether an action is a delivery. -/
def SellerAction.isDeliver : SellerAction → Bool
  | SellerAction.deliver _ _ _ => true
  | _ => false

/-- Whether an action is an acceptance (acceptOrReject with accept). -/
def SellerAction.isAccept : SellerAction → Bool
  | SellerAction.acceptOrReject _ b _ => b
  | _ => false

/-- Whether an action is a rejection (acceptOrReject with accept false). -/
def SellerAction.isReject : SellerAction → Bool
  | SellerAction.acceptOrReject _ b _ => !b
  | _ => false

/-- One processing pass of the job lifecycle controller (handleNewTask in
seller/runtime/seller.ts), as a pure function from the job event to the
list of protocol actions emitted, in emission order.  The offering
registry (loadOffering from seller/runtime/offerings.ts, a module not
among the sources) is the loadOffering argument; a load failure is
Except.error carrying the message of the rejection.  Console logging and
the fire-and-forget action sink calls themselves are not modelled: a sink
call is recorded as the corresponding emitted action. -/
def handleNewTask
    (loadOffering : String → Except String (OfferingConfig × Handlers))
    (parse : String → Option Json) (data : AcpJobEventData) :
    List SellerAction :=
  let jobId := data.id
  if data.phase = AcpJobPhase.REQUEST then
    let requirements := resolveServiceRequirements parse data
    match resolveOfferingName data with
    | some offeringName =>
      match loadOffering offeringName with
      | Except.error e =>
        [SellerAction.acceptOrReject jobId false ("Handler error: " ++ e)]
      | Except.ok (config, handlers) =>
        let validationFailed :=
          match handlers.validateRequirements with
          | some v => !(v requirements)
          | none => false
        if validationFailed then
          [SellerAction.acceptOrReject jobId false "Validation failed"]
        else
          let acceptAct := SellerAction.acceptOrReject jobId true "Job accepted"
          match config.requiredFunds, handlers.requestAdditionalFunds with
          | true, some rf =>
            match rf requirements with
            | Except.error e =>
              [acceptAct,
               SellerAction.acceptOrReject jobId false ("Handler error: " ++ e)]
            | Except.ok funds =>
              match handlers.executeJob requirements with
              | Except.error e =>
                [acceptAct,
                 SellerAction.requestPayment jobId funds.amount funds.ca "request",
                 SellerAction.acceptOrReject jobId false ("Handler error: " ++ e)]
              | Except.ok result =>
                [acceptAct,
                 SellerAction.requestPayment jobId funds.amount funds.ca "request",
                 SellerAction.deliver jobId result.deliverable result.transfer]
          | _, _ =>
            match handlers.executeJob requirements with
            | Except.error e =>
              [acceptAct,
               SellerAction.acceptOrReject jobId false ("Handler error: " ++ e)]
            | Except.ok result =>
              [acceptAct,
               SellerAction.deliver jobId result.deliverable result.transfer]
    | none =>
      [SellerAction.acceptOrReject jobId true "Accepted (no offering matched)"]
  else if data.phase = AcpJobPhase.TRANSACTION then
    match resolveOfferingName data with
    | some offeringName =>
      match loadOffering offeringName with
      | Except.error _ => []
      | Except.ok (_, handlers) =>
        match handlers.executeJob (resolveServiceRequirements parse data) with
        | Except.error _ => []
        | Except.ok result =>
          [SellerAction.deliver jobId result.deliverable result.transfer]
    | none => []
  else []

-- ── The standalone job processor (seller/process-job.ts) ────────────────────

namespace ProcessJob

/-- A loaded handler module as used by seller/process-job.ts; there
executeJob resolves to a plain string result.  Capability calls other than
executeJob are not wrapped in try/catch by the source and are modelled as
pure functions (spec section 4.3). -/
structure Handlers where
  executeJob : Json → Except String String
  validateRequirements : Option (Json → Bool)
  requestAdditionalFunds : Option (Json → FundsRequest)

/-- A dynamically imported handler module, before the executeJob presence
check of loadOffering: executeJob may be missing. -/
structure HandlerModule where
  executeJob : Option (Json → Except String String)
  validateRequirements : Option (Json → Bool)
  requestAdditionalFunds : Option (Json → FundsRequest)

/-- loadOffering from seller/process-job.ts.  The filesystem and the
dynamic import are abstracted: dirExists, configExists and
handlersFileExists say whether the respective paths exist, config is the
parsed offering.json content and handlerModule the imported module.  The
source error messages embed absolute paths; the path suffix is kept.  Note
that the only check on the module is the presence of executeJob: the
requiredFunds contract is not checked at load time here. -/
def loadOffering (dirExists configExists handlersFileExists : Bool)
    (config : OfferingConfig) (handlerModule : HandlerModule) :
    Except String (OfferingConfig × Handlers) :=
  if !dirExists then Except.error "Offering directory not found"
  else if !configExists then Except.error "offering.json not found"
  else if !handlersFileExists then Except.error "handlers.ts not found"
  else
    match handlerModule.executeJob with
    | none => Except.error "handlers.ts must export an executeJob function"
    | some ex =>
      Except.ok (config,
        { executeJob := ex,
          validateRequirements := handlerModule.validateRequirements,
          requestAdditionalFunds := handlerModule.requestAdditionalFunds })

/-- One protocol action of the stub ACP methods in seller/process-job.ts.
The requestFundsMemo token pair is (ca, symbol). -/
inductive Action
  | accept
  | requestFundsMemo (jobFee additionalFunds : Int)
      (token : Option (String × String))
  | deliver (result : String)
  | reject (reason : String)
deriving DecidableEq, Repr

/-- The reject reason used by processJob when requiredFunds is true but the
module exports no requestAdditionalFunds. -/
def fundsMissingReason : String :=
  "Offering requires funds but \"requestAdditionalFunds\" is missing"

/-- The reject reason used by processJob when requiredFunds is false but
the module exports requestAdditionalFunds. -/
def fundsForbiddenReason : String :=
  "Offering does not require funds but \"requestAdditionalFunds\" was provided"

/-- processJob from seller/process-job.ts, after a successful loadOffering,
as the list of ACP actions invoked in order.  Step 1 validates, step 2
accepts, step 3 requests funds (and re-checks the requiredFunds contract
at runtime, rejecting on a mismatch), step 4 executes, step 5 delivers;
an executeJob failure is caught and turned into a reject whose reason
embeds the string form of the thrown error. -/
def processJob (config : OfferingConfig) (handlers : Handlers)
    (jobRequest : Json) : List Action :=
  let validationFailed :=
    match handlers.validateRequirements with
    | some v => !(v jobRequest)
    | none => false
  if validationFailed then [Action.reject "Job request failed validation"]
  else
    let execPart : Int → Option (String × String) → List Action :=
      fun additionalFunds token =>
        Action.requestFundsMemo config.jobFee additionalFunds token ::
        (match handlers.executeJob jobRequest with
         | Except.ok result => [Action.deliver result]
         | Except.error e => [Action.reject ("Execution error: " ++ e)])
    Action.accept ::
    (match config.requiredFunds, handlers.requestAdditionalFunds with
     | true, none => [Action.reject fundsMissingReason]
     | true, some rf =>
       let funds := rf jobRequest
       execPart funds.amount
         (if funds.ca != "" && funds.symbol != "" then
            some (funds.ca, funds.symbol)
          else none)
     | false, some _ => [Action.reject fundsForbiddenReason]
     | false, none => execPart 0 none)

end ProcessJob

-- ── Offering validation in the sell CLI (src/unnamed/part_002) ──────────────

namespace Sell

/-- The accumulating result of one validation pass. -/
structure ValidationResult where
  valid : Bool
  errors : List String
  warnings : List String
deriving DecidableEq, Repr

/-- Error message for a missing or empty name field. -/
def errName : String := "\"name\" field is required (non-empty string)"

/-- Error message for a missing or empty description field. -/
def errDescription : String := "\"description\" field is required (non-empty string)"

/-- Error message for a missing jobFee field. -/
def errJobFeeRequired : String := "\"jobFee\" field is required (number)"

/-- Error message for a non-number or negative jobFee field. -/
def errJobFeeNonneg : String := "\"jobFee\" must be a non-negative number"

/-- Error message for a missing requiredFunds field. -/
def errFundsRequired : String := "\"requiredFunds\" field is required (boolean)"

/-- Error message for a non-boolean requiredFunds field. -/
def errFundsBool : String := "\"requiredFunds\" must be a boolean"

/-- The field-level checks of validateOfferingJson (src/unnamed/part_002)
on the parsed content of offering.json, modelled as a JSON object given by
its field list.  The earlier stages of the source function (file
existence, file read, JSON.parse), which return early, are outside this
model.  Each failed check appends its error and clears valid; no check
short-circuits any other. -/
def validateOfferingJson (json : List (String × Json)) : ValidationResult :=
  let name := jget json "name"
  let description := jget json "description"
  let jobFee := jget json "jobFee"
  let requiredFunds := jget json "requiredFunds"
  let nameBad := !jsTruthy name || !isStr name || trimEmpty name
  let descriptionBad :=
    !jsTruthy description || !isStr description || trimEmpty description
  let jobFeeMissing := isNullish jobFee
  let jobFeeBad := !isNum jobFee || numNeg jobFee
  let fundsMissing := isNullish requiredFunds
  let fundsBad := !isBool requiredFunds
  { valid := !(nameBad || descriptionBad ||
               (jobFeeMissing || jobFeeBad) || (fundsMissing || fundsBad)),
    errors :=
      (if nameBad then [errName] else []) ++
      (if descriptionBad then [errDescription] else []) ++
      (if jobFeeMissing then [errJobFeeRequired]
       else if jobFeeBad then [errJobFeeNonneg] else []) ++
      (if fundsMissing then [errFundsRequired]
       else if fundsBad then [errFundsBool] else []),
    warnings := [] }

/-- Error message when handlers.ts exports no executeJob. -/
def errNoExecuteJob : String := "handlers.ts must export an \"executeJob\" function"

/-- Warning when handlers.ts exports no validateRequirements. -/
def warnNoValidate : String := "Optional: \"validateRequirements\" handler not found."

/-- Error message for a missing requestAdditionalFunds when required. -/
def errFundsHandlerMissing : String :=
  "\"requiredFunds\" is true — handlers.ts must export \"requestAdditionalFunds\""

/-- Error message for a present requestAdditionalFunds when forbidden. -/
def errFundsHandlerForbidden : String :=
  "\"requiredFunds\" is false — handlers.ts must NOT export \"requestAdditionalFunds\""

/-- validateHandlers from src/unnamed/part_002.  The regex detection of
exported capabilities in the handlers.ts source text is abstracted:
hasExecuteJob, hasValidate and hasFunds are the results of the source
pattern tests; requiredFunds is the descriptor flag when the descriptor
parsed (undefined otherwise, in which case neither contract direction is
checked).  The file-not-found message embeds a path in the source; the
path is dropped here. -/
def validateHandlers (fileExists : Bool)
    (hasExecuteJob hasValidate hasFunds : Bool)
    (requiredFunds : Option Bool) : ValidationResult :=
  if !fileExists then
    { valid := false, errors := ["handlers.ts not found"], warnings := [] }
  else
    let missingWhenRequired := requiredFunds == some true && !hasFunds
    let presentWhenForbidden := requiredFunds == some false && hasFunds
    { valid := !(!hasExecuteJob || missingWhenRequired || presentWhenForbidden),
      errors :=
        (if !hasExecuteJob then [errNoExecuteJob] else []) ++
        (if missingWhenRequired then [errFundsHandlerMissing] else []) ++
        (if presentWhenForbidden then [errFundsHandlerForbidden] else []),
      warnings := if !hasValidate then [warnNoValidate] else [] }

end Sell

-- ── The runtime offering registry (seller/runtime/offerings.ts) ─────────────

namespace Registry

/-- A successfully resolved offering: descriptor plus handler set. -/
structure Resolved where
  config : OfferingConfig
  handlers : Handlers

/-- Modelled from the spec: the offering registry module
seller/runtime/offerings.ts (the loadOffering the runtime controller
imports) is not among the sources; spec section 4.1 specifies its caching
side effect — successful resolutions are memoized by offering name for the
process lifetime, failed resolutions are not cached.  The cache is an
association list from offering name to resolved offering; load is the
underlying storage/module load.  The result triple is (outcome, new cache
state, whether the underlying load was performed). -/
def resolveOffering (load : String → Except String Resolved)
    (cache : List (String × Resolved)) (name : String) :
    Except String Resolved × List (String × Resolved) × Bool :=
  match cache.lookup name with
  | some r => (Except.ok r, cache, false)
  | none =>
    match load name with
    | Except.ok r => (Except.ok r, (name, r) :: cache, true)
    | Except.error e => (Except.error e, cache, true)

end Registry

-- ── Spec-side comparison definition for requirements extraction ─────────────

/-- The requirements extraction as the spec words it (section 3,
RequirementsExtraction): explicit context fields first, failing that the
MOST RECENT memo whose nextPhase is NEGOTIATION, otherwise empty
requirements.  Written only to compare against the source function
resolveServiceRequirements; memo-content handling apart from the choice of
memo is kept identical. -/
def specResolveServiceRequirements (parse : String → Option Json)
    (data : AcpJobEventData) : Json :=
  let ctxReq := data.context.bind (fun c => c.serviceRequirements)
  if jsTruthy ctxReq then ctxReq.getD (Json.obj [])
  else
    match (data.memos.filter
        (fun m => m.nextPhase == AcpJobPhase.NEGOTIATION)).getLast? with
    | some m =>
      match m.content with
      | some content =>
        if content != "" then
          match parse content with
          | some v => v
          | none => Json.obj [("raw", Json.str content)]
        else Json.obj []
      | none => Json.obj []
    | none => Json.obj []

-- ── Concrete fixtures used by the witness theorems ──────────────────────────

/-- A JSON.parse model under which every memo content fails to parse. -/
def parse0 : String → Option Json := fun _ => none

/-- A descriptor with requiredFunds set. -/
def cfgFunds : OfferingConfig :=
  { name := "paid-svc", description := "a paid service", jobFee := 2,
    requiredFunds := true }

/-- A descriptor without requiredFunds. -/
def cfgNoFunds : OfferingConfig :=
  { name := "free-svc", description := "a free service", jobFee := 1,
    requiredFunds := false }

/-- A successful execution result. -/
def okResult : ExecuteJobResult := { deliverable := "done", transfer := none }

/-- Handlers for a requiredFunds offering: validation passes, the fund
request and the execution succeed. -/
def handlersFunds : Handlers :=
  { executeJob := fun _ => Except.ok okResult,
    validateRequirements := some (fun _ => true),
    requestAdditionalFunds :=
      some (fun _ => Except.ok { amount := 5, ca := "0xCA", symbol := "TOK" }) }

/-- Handlers for a free offering with only executeJob. -/
def handlersPlain : Handlers :=
  { executeJob := fun _ => Except.ok okResult,
    validateRequirements := none,
    requestAdditionalFunds := none }

/-- Handlers whose validateRequirements rejects every request. -/
def handlersRejecting : Handlers :=
  { executeJob := fun _ => Except.ok okResult,
    validateRequirements := some (fun _ => false),
    requestAdditionalFunds := none }

/-- Handlers whose executeJob always throws. -/
def handlersFailing : Handlers :=
  { executeJob := fun _ => Except.error "boom",
    validateRequirements := none,
    requestAdditionalFunds := none }

/-- A registry resolving every name to the requiredFunds offering. -/
def loadFunds : String → Except String (OfferingConfig × Handlers) :=
  fun _ => Except.ok (cfgFunds, handlersFunds)

/-- A registry resolving every name to the free offering. -/
def loadPlain : String → Except String (OfferingConfig × Handlers) :=
  fun _ => Except.ok (cfgNoFunds, handlersPlain)

/-- A registry resolving every name to the always-rejecting handlers. -/
def loadRejecting : String → Except String (OfferingConfig × Handlers) :=
  fun _ => Except.ok (cfgNoFunds, handlersRejecting)

/-- A registry resolving every name to the always-failing handlers. -/
def loadFailing : String → Except String (OfferingConfig × Handlers) :=
  fun _ => Except.ok (cfgNoFunds, handlersFailing)

/-- A registry that fails every resolution. -/
def loadBroken : String → Except String (OfferingConfig × Handlers) :=
  fun _ => Except.error "module broken"

/-- A job context naming an offering. -/
def ctxNamed : AcpJobContext :=
  { jobOfferingName := some "svc", offeringName := none,
    serviceRequirements := none }

/-- A job context with no routing information. -/
def ctxEmpty : AcpJobContext :=
  { jobOfferingName := none, offeringName := none,
    serviceRequirements := none }

/-- A REQUEST-phase job event naming an offering. -/
def dataRequest : AcpJobEventData :=
  { id := 1, phase := AcpJobPhase.REQUEST, clientAddress := "0xclient",
    price := 3, context := some ctxNamed, memos := [] }

/-- A TRANSACTION-phase job event naming an offering. -/
def dataTransaction : AcpJobEventData :=
  { id := 2, phase := AcpJobPhase.TRANSACTION, clientAddress := "0xclient",
    price := 3, context := some ctxNamed, memos := [] }

/-- A REQUEST-phase job event with empty context and no memos. -/
def dataNoName : AcpJobEventData :=
  { id := 7, phase := AcpJobPhase.REQUEST, clientAddress := "0xclient",
    price := 0, context := none, memos := [] }

/-- A REQUEST-phase job event with empty context and two
NEGOTIATION-phase memos with distinct contents. -/
def dataTwoMemos : AcpJobEventData :=
  { id := 3, phase := AcpJobPhase.REQUEST, clientAddress := "0xclient",
    price := 0, context := some ctxEmpty,
    memos := [{ nextPhase := AcpJobPhase.NEGOTIATION, content := some "one" },
              { nextPhase := AcpJobPhase.NEGOTIATION, content := some "two" }] }

/-- A resolved offering value for the registry cache model. -/
def resolvedPlain : Registry.Resolved :=
  { config := cfgNoFunds, handlers := handlersPlain }

/-- An underlying load that succeeds on every name. -/
def storageOk : String → Except String Registry.Resolved :=
  fun _ => Except.ok resolvedPlain

/-- An underlying load that fails on every name. -/
def storageBroken : String → Except String Registry.Resolved :=
  fun _ => Except.error "offering directory missing"

/-- The process-job handlers of a contract-violating offering: the
descriptor sets requiredFunds but the module exports no
requestAdditionalFunds. -/
def pjHandlersNoFunds : ProcessJob.Handlers :=
  { executeJob := fun _ => Except.ok "done",
    validateRequirements := none,
    requestAdditionalFunds := none }

/-- The imported module form of the same contract-violating handlers. -/
def pjModuleNoFunds : ProcessJob.HandlerModule :=
  { executeJob := some (fun _ => Except.ok "done"),
    validateRequirements := none,
    requestAdditionalFunds := none }

-- ── Theorems ────────────────────────────────────────────────────────────────

/-- C6: at phase REQUEST, when no offering name can be extracted from the
job event, the controller emits exactly one accept action with accept set
and the generic reason, and no other action. -/
theorem request_no_offering_accepts
    (loadOffering : String → Except String (OfferingConfig × Handlers))
    (parse : String → Option Json) (data : AcpJobEventData)
    (hphase : data.phase = AcpJobPhase.REQUEST)
    (hname : resolveOfferingName data = none) :
    handleNewTask loadOffering parse data =
      [SellerAction.acceptOrReject data.id true "Accepted (no offering matched)"] := by
  simp [handleNewTask, hphase, hname]

/-- Witness for C6: the empty-context, empty-memos job event is accepted
generically. -/
theorem request_no_offering_accepts_witness :
    handleNewTask loadBroken parse0 dataNoName =
      [SellerAction.acceptOrReject 7 true "Accepted (no offering matched)"] :=
  request_no_offering_accepts loadBroken parse0 dataNoName rfl rfl

/-- C3: at phase REQUEST, when the resolved handler set exposes
validateRequirements and it returns false on the extracted requirements,
the controller emits exactly one reject action with the fixed reason
"Validation failed" and nothing else — no accept, payment-request or
deliver action. -/
theorem request_validation_short_circuit
    (loadOffering : String → Except String (OfferingConfig × Handlers))
    (parse : String → Option Json) (data : AcpJobEventData)
    (offeringName : String) (config : OfferingConfig) (handlers : Handlers)
    (v : Json → Bool)
    (hphase : data.phase = AcpJobPhase.REQUEST)
    (hname : resolveOfferingName data = some offeringName)
    (hload : loadOffering offeringName = Except.ok (config, handlers))
    (hv : handlers.validateRequirements = some v)
    (hfalse : v (resolveServiceRequirements parse data) = false) :
    handleNewTask loadOffering parse data =
      [SellerAction.acceptOrReject data.id false "Validation failed"] := by
  simp [handleNewTask, hphase, hname, hload, hv, hfalse]

/-- Witness for C3: a named REQUEST-phase job against always-rejecting
handlers yields the single fixed-reason reject. -/
theorem request_validation_short_circuit_witness :
    handleNewTask loadRejecting parse0 dataRequest =
      [SellerAction.acceptOrReject 1 false "Validation failed"] :=
  request_validation_short_circuit loadRejecting parse0 dataRequest
    "svc" cfgNoFunds handlersRejecting (fun _ => false) rfl rfl rfl rfl rfl

/-- C5: at phase TRANSACTION, a resolution failure or an executeJob
failure produces no protocol action at all (in particular zero reject and
zero deliver actions), and so does a job event from which no offering name
can be extracted. -/
theorem transaction_failures_silent
    (loadOffering : String → Except String (OfferingConfig × Handlers))
    (parse : String → Option Json) (data : AcpJobEventData)
    (hphase : data.phase = AcpJobPhase.TRANSACTION) :
    (resolveOfferingName data = none →
      handleNewTask loadOffering parse data = [])
    ∧ (∀ offeringName e, resolveOfferingName data = some offeringName →
        loadOffering offeringName = Except.error e →
        handleNewTask loadOffering parse data = [])
    ∧ (∀ offeringName config handlers e,
        resolveOfferingName data = some offeringName →
        loadOffering offeringName = Except.ok (config, handlers) →
        handlers.executeJob (resolveServiceRequirements parse data) =
          Except.error e →
        handleNewTask loadOffering parse data = []) := by
  refine ⟨fun h => ?_, fun n e hn hl => ?_, fun n c hs e hn hl he => ?_⟩
  · simp [handleNewTask, hphase, h]
  · simp [handleNewTask, hphase, hn, hl]
  · simp [handleNewTask, hphase, hn, hl, he]

/-- Witness for C5: a TRANSACTION-phase job whose executeJob throws emits
no action. -/
theorem transaction_failures_silent_witness :
    handleNewTask loadFailing parse0 dataTransaction = [] :=
  (transaction_failures_silent loadFailing parse0 dataTransaction rfl).2.2
    "svc" cfgNoFunds handlersFailing "boom" rfl rfl rfl

/-- C2: at phase REQUEST, for a job that completes successfully against a
resolved offering whose handler set satisfies the contract law, exactly
one payment-request action is emitted when requiredFunds is set — placed
after the accept action and before the deliver action, in mode "request",
carrying the amount and contract address returned by
requestAdditionalFunds — and zero payment-request actions are emitted when
requiredFunds is not set. -/
theorem funding_gate
    (loadOffering : String → Except String (OfferingConfig × Handlers))
    (parse : String → Option Json) (data : AcpJobEventData)
    (offeringName : String) (config : OfferingConfig) (handlers : Handlers)
    (funds : FundsRequest) (result : ExecuteJobResult)
    (hphase : data.phase = AcpJobPhase.REQUEST)
    (hname : resolveOfferingName data = some offeringName)
    (hload : loadOffering offeringName = Except.ok (config, handlers))
    (hcontract : handlers.requestAdditionalFunds.isSome = config.requiredFunds)
    (hvalid : ∀ v, handlers.validateRequirements = some v →
        v (resolveServiceRequirements parse data) = true)
    (hfunds : ∀ rf, handlers.requestAdditionalFunds = some rf →
        rf (resolveServiceRequirements parse data) = Except.ok funds)
    (hexec : handlers.executeJob (resolveServiceRequirements parse data) =
        Except.ok result) :
    ((handleNewTask loadOffering parse data).filter
        SellerAction.isPaymentRequest).length =
      (if config.requiredFunds then 1 else 0)
    ∧ (config.requiredFunds = true →
        handleNewTask loadOffering parse data =
          [SellerAction.acceptOrReject data.id true "Job accepted",
           SellerAction.requestPayment data.id funds.amount funds.ca "request",
           SellerAction.deliver data.id result.deliverable result.transfer])
    ∧ (config.requiredFunds = false →
        handleNewTask loadOffering parse data =
          [SellerAction.acceptOrReject data.id true "Job accepted",
           SellerAction.deliver data.id result.deliverable result.transfer]) := by
  have hlist :
      handleNewTask loadOffering parse data =
        if config.requiredFunds then
          [SellerAction.acceptOrReject data.id true "Job accepted",
           SellerAction.requestPayment data.id funds.amount funds.ca "request",
           SellerAction.deliver data.id result.deliverable result.transfer]
        else
          [SellerAction.acceptOrReject data.id true "Job accepted",
           SellerAction.deliver data.id result.deliverable result.transfer] := by
    cases hrf : handlers.requestAdditionalFunds with
    | none =>
      have hcf : config.requiredFunds = false := by
        rw [← hcontract, hrf]; rfl
      cases hv : handlers.validateRequirements with
      | none =>
        simp [handleNewTask, hphase, hname, hload, hv, hcf, hexec]
      | some vf =>
        have := hvalid vf hv
        simp [handleNewTask, hphase, hname, hload, hv, this, hcf, hexec]
    | some rf =>
      have hcf : config.requiredFunds = true := by
        rw [← hcontract, hrf]; rfl
      have hrfok := hfunds rf hrf
      cases hv : handlers.validateRequirements with
      | none =>
        simp [handleNewTask, hphase, hname, hload, hv, hcf, hrf, hrfok, hexec]
      | some vf =>
        have := hvalid vf hv
        simp [handleNewTask, hphase, hname, hload, hv, this, hcf, hrf, hrfok,
          hexec]
  refine ⟨?_, fun hcf => ?_, fun hcf => ?_⟩ <;>
    cases hcf2 : config.requiredFunds <;>
    simp_all [SellerAction.isPaymentRequest, List.filter]

/-- Witness for C2: a requiredFunds offering with succeeding handlers
produces accept, then the payment request, then the delivery. -/
theorem funding_gate_witness :
    handleNewTask loadFunds parse0 dataRequest =
      [SellerAction.acceptOrReject 1 true "Job accepted",
       SellerAction.requestPayment 1 5 "0xCA" "request",
       SellerAction.deliver 1 "done" none] :=
  (funding_gate loadFunds parse0 dataRequest "svc" cfgFunds handlersFunds
    { amount := 5, ca := "0xCA", symbol := "TOK" } okResult
    rfl rfl rfl rfl
    (fun v hv => by
      simp only [handlersFunds] at hv
      cases hv; rfl)
    (fun rf hrf => by
      simp only [handlersFunds] at hrf
      cases hrf; rfl)
    rfl).2.1 rfl

/-- C4: at phase REQUEST with a resolved offering, when executeJob throws
(after validation passed and any fund request succeeded), the error is
caught and exactly one reject action is emitted, its reason embedding the
underlying error message, and zero deliver actions are emitted. -/
theorem request_execute_failure_rejects
    (loadOffering : String → Except String (OfferingConfig × Handlers))
    (parse : String → Option Json) (data : AcpJobEventData)
    (offeringName : String) (config : OfferingConfig) (handlers : Handlers)
    (msg : String)
    (hphase : data.phase = AcpJobPhase.REQUEST)
    (hname : resolveOfferingName data = some offeringName)
    (hload : loadOffering offeringName = Except.ok (config, handlers))
    (hvalid : ∀ v, handlers.validateRequirements = some v →
        v (resolveServiceRequirements parse data) = true)
    (hfunds : ∀ rf, handlers.requestAdditionalFunds = some rf →
        ∃ f, rf (resolveServiceRequirements parse data) = Except.ok f)
    (hexec : handlers.executeJob (resolveServiceRequirements parse data) =
        Except.error msg) :
    (handleNewTask loadOffering parse data).filter SellerAction.isReject =
      [SellerAction.acceptOrReject data.id false ("Handler error: " ++ msg)]
    ∧ (handleNewTask loadOffering parse data).filter SellerAction.isDeliver
        = [] := by
  cases hrf : handlers.requestAdditionalFunds with
  | none =>
    cases hv : handlers.validateRequirements with
    | none =>
      cases hcf : config.requiredFunds <;>
        simp [handleNewTask, hphase, hname, hload, hv, hcf, hrf, hexec,
          List.filter, SellerAction.isReject, SellerAction.isDeliver]
    | some vf =>
      have := hvalid vf hv
      cases hcf : config.requiredFunds <;>
        simp [handleNewTask, hphase, hname, hload, hv, this, hcf, hrf, hexec,
          List.filter, SellerAction.isReject, SellerAction.isDeliver]
  | some rf =>
    obtain ⟨f, hf⟩ := hfunds rf hrf
    cases hv : handlers.validateRequirements with
    | none =>
      cases hcf : config.requiredFunds <;>
        simp [handleNewTask, hphase, hname, hload, hv, hcf, hrf, hf, hexec,
          List.filter, SellerAction.isReject, SellerAction.isDeliver]
    | some vf =>
      have := hvalid vf hv
      cases hcf : config.requiredFunds <;>
        simp [handleNewTask, hphase, hname, hload, hv, this, hcf, hrf, hf,
          hexec, List.filter, SellerAction.isReject, SellerAction.isDeliver]

/-- Witness for C4: a REQUEST-phase job whose executeJob throws "boom"
yields exactly one reject embedding "boom" and no deliver action. -/
theorem request_execute_failure_rejects_witness :
    (handleNewTask loadFailing parse0 dataRequest).filter
        SellerAction.isReject =
      [SellerAction.acceptOrReject 1 false "Handler error: boom"]
    ∧ (handleNewTask loadFailing parse0 dataRequest).filter
        SellerAction.isDeliver = [] :=
  request_execute_failure_rejects loadFailing parse0 dataRequest "svc"
    cfgNoFunds handlersFailing "boom" rfl rfl rfl
    (fun v hv => by simp only [handlersFailing] at hv; cases hv)
    (fun rf hrf => by simp only [handlersFailing] at hrf; cases hrf)
    rfl

/-- C10: in the scenario of C4 — REQUEST phase, resolved offering,
validation passed, fund request (if any) succeeded, executeJob throws —
the controller emits the accept action first and the reject for the same
job last, in the same processing pass: the earlier accept is not rolled
back or suppressed by the failure. -/
theorem request_accept_then_reject_on_failure
    (loadOffering : String → Except String (OfferingConfig × Handlers))
    (parse : String → Option Json) (data : AcpJobEventData)
    (offeringName : String) (config : OfferingConfig) (handlers : Handlers)
    (msg : String)
    (hphase : data.phase = AcpJobPhase.REQUEST)
    (hname : resolveOfferingName data = some offeringName)
    (hload : loadOffering offeringName = Except.ok (config, handlers))
    (hvalid : ∀ v, handlers.validateRequirements = some v →
        v (resolveServiceRequirements parse data) = true)
    (hfunds : ∀ rf, handlers.requestAdditionalFunds = some rf →
        ∃ f, rf (resolveServiceRequirements parse data) = Except.ok f)
    (hexec : handlers.executeJob (resolveServiceRequirements parse data) =
        Except.error msg) :
    (handleNewTask loadOffering parse data).head? =
      some (SellerAction.acceptOrReject data.id true "Job accepted")
    ∧ (handleNewTask loadOffering parse data).getLast? =
      some (SellerAction.acceptOrReject data.id false
        ("Handler error: " ++ msg)) := by
  cases hrf : handlers.requestAdditionalFunds with
  | none =>
    cases hv : handlers.validateRequirements with
    | none =>
      cases hcf : config.requiredFunds <;>
        simp [handleNewTask, hphase, hname, hload, hv, hcf, hrf, hexec]
    | some vf =>
      have := hvalid vf hv
      cases hcf : config.requiredFunds <;>
        simp [handleNewTask, hphase, hname, hload, hv, this, hcf, hrf, hexec]
  | some rf =>
    obtain ⟨f, hf⟩ := hfunds rf hrf
    cases hv : handlers.validateRequirements with
    | none =>
      cases hcf : config.requiredFunds <;>
        simp [handleNewTask, hphase, hname, hload, hv, hcf, hrf, hf, hexec]
    | some vf =>
      have := hvalid vf hv
      cases hcf : config.requiredFunds <;>
        simp [handleNewTask, hphase, hname, hload, hv, this, hcf, hrf, hf,
          hexec]

/-- Witness for C10: with executeJob throwing "boom", the first emitted
action is the accept and the last is the reject. -/
theorem request_accept_then_reject_on_failure_witness :
    (handleNewTask loadFailing parse0 dataRequest).head? =
      some (SellerAction.acceptOrReject 1 true "Job accepted")
    ∧ (handleNewTask loadFailing parse0 dataRequest).getLast? =
      some (SellerAction.acceptOrReject 1 false "Handler error: boom") :=
  request_accept_then_reject_on_failure loadFailing parse0 dataRequest "svc"
    cfgNoFunds handlersFailing "boom" rfl rfl rfl
    (fun v hv => by simp only [handlersFailing] at hv; cases hv)
    (fun rf hrf => by simp only [handlersFailing] at hrf; cases hrf)
    rfl

/-- C9: once a resolution of an offering name has succeeded, a later
resolution of the same name performs no underlying load — whatever the
loader now does — and returns the cached resolved offering with the cache
unchanged; a failed resolution leaves the cache unchanged and performs the
load again on retry, so a retry with a fixed loader succeeds. -/
theorem resolution_memoized
    (load load2 : String → Except String Registry.Resolved)
    (cache : List (String × Registry.Resolved)) (name : String) :
    (∀ r, (Registry.resolveOffering load cache name).1 = Except.ok r →
      Registry.resolveOffering load2
          (Registry.resolveOffering load cache name).2.1 name =
        (Except.ok r, (Registry.resolveOffering load cache name).2.1, false))
    ∧ (∀ e, cache.lookup name = none → load name = Except.error e →
        Registry.resolveOffering load cache name = (Except.error e, cache, true)
        ∧ (∀ r2, load2 name = Except.ok r2 →
            Registry.resolveOffering load2 cache name =
              (Except.ok r2, (name, r2) :: cache, true))) := by
  constructor
  · intro r hfirst
    cases hc : cache.lookup name with
    | some r0 =>
      simp [Registry.resolveOffering, hc] at hfirst ⊢
      exact hfirst
    | none =>
      cases hl : load name with
      | ok r1 =>
        simp [Registry.resolveOffering, hc, hl] at hfirst ⊢
        exact hfirst
      | error e =>
        simp [Registry.resolveOffering, hc, hl] at hfirst
  · intro e hc hl
    refine ⟨by simp [Registry.resolveOffering, hc, hl], fun r2 hl2 => ?_⟩
    simp [Registry.resolveOffering, hc, hl2]

/-- Witness for C9: after resolving a name against a working store, a
second resolution — even against a now-broken store — returns the cached
offering without loading; and a failed first resolution with the broken
store caches nothing, so the same call against the working store loads and
succeeds. -/
theorem resolution_memoized_witness :
    Registry.resolveOffering storageBroken
        (Registry.resolveOffering storageOk [] "svc").2.1 "svc" =
      (Except.ok resolvedPlain,
       (Registry.resolveOffering storageOk [] "svc").2.1, false)
    ∧ (Registry.resolveOffering storageBroken [] "svc" =
        (Except.error "offering directory missing", [], true)
       ∧ Registry.resolveOffering storageOk [] "svc" =
          (Except.ok resolvedPlain, [("svc", resolvedPlain)], true)) :=
  ⟨(resolution_memoized storageOk storageBroken [] "svc").1 resolvedPlain rfl,
   ((resolution_memoized storageBroken storageOk [] "svc").2
      "offering directory missing" rfl rfl).1,
   ((resolution_memoized storageBroken storageOk [] "svc").2
      "offering directory missing" rfl rfl).2 resolvedPlain rfl⟩

/-- The combined name/description check of validateOfferingJson holds
exactly when the field is not a string with non-blank content. -/
lemma strFieldCheck_iff (v : Option Json) :
    (!jsTruthy v || !isStr v || trimEmpty v) = true ↔
      ¬∃ s, v = some (Json.str s) ∧ jsTrim s ≠ "" := by
  rcases v with _ | j
  · simp [jsTruthy, isStr, trimEmpty]
  · cases j with
    | str s =>
      by_cases hs : s = ""
      · subst hs
        simp [jsTruthy, isStr, trimEmpty, jsTrim]
      · simp [jsTruthy, isStr, trimEmpty, hs]
    | null => simp [jsTruthy, isStr, trimEmpty]
    | bool b => cases b <;> simp [jsTruthy, isStr, trimEmpty]
    | num n => simp [jsTruthy, isStr, trimEmpty]
    | obj fields => simp [jsTruthy, isStr, trimEmpty]

/-- The second-stage jobFee check of validateOfferingJson holds exactly
when the field is not a non-negative number. -/
lemma feeCheck_iff (v : Option Json) :
    (!isNum v || numNeg v) = true ↔
      ¬∃ n, v = some (Json.num n) ∧ 0 ≤ n := by
  rcases v with _ | j
  · simp [isNum, numNeg]
  · cases j <;> simp [isNum, numNeg]

/-- The second-stage requiredFunds check of validateOfferingJson holds
exactly when the field is not a boolean. -/
lemma boolCheck_iff (v : Option Json) :
    (!isBool v) = true ↔ ¬∃ b, v = some (Json.bool b) := by
  rcases v with _ | j
  · simp [isBool]
  · cases j <;> simp [isBool]

/-- C8: validateOfferingJson reports every violated field-level rule of
the parsed descriptor simultaneously — each rule's error message is
present exactly when that rule is violated, independently of the other
rules — and the result is valid exactly when no error was collected. -/
theorem validateOfferingJson_reports_all_violations
    (json : List (String × Json)) :
    (Sell.errName ∈ (Sell.validateOfferingJson json).errors ↔
      ¬∃ s, jget json "name" = some (Json.str s) ∧ jsTrim s ≠ "")
    ∧ (Sell.errDescription ∈ (Sell.validateOfferingJson json).errors ↔
      ¬∃ s, jget json "description" = some (Json.str s) ∧ jsTrim s ≠ "")
    ∧ (Sell.errJobFeeRequired ∈ (Sell.validateOfferingJson json).errors ↔
      isNullish (jget json "jobFee") = true)
    ∧ (Sell.errJobFeeNonneg ∈ (Sell.validateOfferingJson json).errors ↔
      (isNullish (jget json "jobFee") = false ∧
        ¬∃ n, jget json "jobFee" = some (Json.num n) ∧ 0 ≤ n))
    ∧ (Sell.errFundsRequired ∈ (Sell.validateOfferingJson json).errors ↔
      isNullish (jget json "requiredFunds") = true)
    ∧ (Sell.errFundsBool ∈ (Sell.validateOfferingJson json).errors ↔
      (isNullish (jget json "requiredFunds") = false ∧
        ¬∃ b, jget json "requiredFunds" = some (Json.bool b)))
    ∧ ((Sell.validateOfferingJson json).valid = true ↔
      (Sell.validateOfferingJson json).errors = []) := by
  rw [← strFieldCheck_iff (jget json "name"),
    ← strFieldCheck_iff (jget json "description"),
    ← feeCheck_iff (jget json "jobFee"),
    ← boolCheck_iff (jget json "requiredFunds")]
  simp only [Sell.validateOfferingJson]
  cases h1 : (!jsTruthy (jget json "name") || !isStr (jget json "name") ||
      trimEmpty (jget json "name")) <;>
    cases h2 : (!jsTruthy (jget json "description") ||
      !isStr (jget json "description") ||
      trimEmpty (jget json "description")) <;>
    cases h3 : isNullish (jget json "jobFee") <;>
    cases h4 : (!isNum (jget json "jobFee") || numNeg (jget json "jobFee")) <;>
    cases h5 : isNullish (jget json "requiredFunds") <;>
    cases h6 : (!isBool (jget json "requiredFunds")) <;>
    simp_all [Sell.errName, Sell.errDescription, Sell.errJobFeeRequired,
      Sell.errJobFeeNonneg, Sell.errFundsRequired, Sell.errFundsBool]

/-- find? returns the element at the first index satisfying the
predicate. -/
lemma find?_of_first_index {α : Type} (p : α → Bool) (l : List α) (i : Nat)
    (hi : i < l.length) (hp : p (l.get ⟨i, hi⟩) = true)
    (hmin : ∀ j (hj : j < l.length), j < i → p (l.get ⟨j, hj⟩) = false) :
    l.find? p = some (l.get ⟨i, hi⟩) := by
  induction l generalizing i with
  | nil => exact absurd hi (by simp)
  | cons a l ih =>
    cases i with
    | zero =>
      simp only [List.get] at hp ⊢
      simp [List.find?_cons, hp]
    | succ n =>
      have ha : p a = false := by
        have := hmin 0 (by simp) (Nat.succ_pos n)
        simpa using this
      have hn : n < l.length := by
        simpa [Nat.succ_lt_succ_iff] using hi
      have hrec := ih n hn (by simpa using hp)
        (fun j hj hlt => by
          have := hmin (j + 1) (by simpa [Nat.succ_lt_succ_iff] using hj)
            (Nat.succ_lt_succ hlt)
          simpa using this)
      simp [List.find?_cons, ha]
      simpa using hrec

/-- C7 counterexample: with an empty context and two NEGOTIATION-phase
memos whose contents both fail to parse, the controller takes the FIRST
matching memo ("one"), not the most recent one ("two") as the claim
states; also no offering name is recovered although memos are present. -/
theorem requirements_extraction_counterexample :
    resolveOfferingName dataTwoMemos = none
    ∧ resolveServiceRequirements parse0 dataTwoMemos =
        Json.obj [("raw", Json.str "one")]
    ∧ specResolveServiceRequirements parse0 dataTwoMemos =
        Json.obj [("raw", Json.str "two")]
    ∧ resolveServiceRequirements parse0 dataTwoMemos ≠
        specResolveServiceRequirements parse0 dataTwoMemos := by
  have h1 : resolveServiceRequirements parse0 dataTwoMemos =
      Json.obj [("raw", Json.str "one")] := rfl
  have h2 : specResolveServiceRequirements parse0 dataTwoMemos =
      Json.obj [("raw", Json.str "two")] := rfl
  refine ⟨rfl, h1, h2, ?_⟩
  rw [h1, h2]
  intro h
  simp at h

/-- C7 amended: the offering name is recovered from the explicit context
fields only — the memos are never consulted for it; the service
requirements come from the truthy context field first, otherwise from the
FIRST memo in list order whose nextPhase is NEGOTIATION (its content
parsed, with a raw-wrapping fallback when parsing fails), and the empty
requirements object when no source yields requirements. -/
theorem requirements_extraction_order
    (parse : String → Option Json) (data : AcpJobEventData) :
    (∀ memos2, resolveOfferingName { data with memos := memos2 } =
        resolveOfferingName data)
    ∧ (data.context = none → resolveOfferingName data = none)
    ∧ (∀ r, data.context.bind (fun c => c.serviceRequirements) = some r →
        jsTruthy (some r) = true →
        resolveServiceRequirements parse data = r)
    ∧ (∀ i (hi : i < data.memos.length) (c : String),
        jsTruthy (data.context.bind (fun c2 => c2.serviceRequirements)) =
          false →
        (data.memos.get ⟨i, hi⟩).nextPhase = AcpJobPhase.NEGOTIATION →
        (∀ j (hj : j < data.memos.length), j < i →
          (data.memos.get ⟨j, hj⟩).nextPhase ≠ AcpJobPhase.NEGOTIATION) →
        (data.memos.get ⟨i, hi⟩).content = some c → c ≠ "" →
        resolveServiceRequirements parse data =
          (match parse c with
           | some v => v
           | none => Json.obj [("raw", Json.str c)]))
    ∧ ((∀ m ∈ data.memos, m.nextPhase ≠ AcpJobPhase.NEGOTIATION) →
        jsTruthy (data.context.bind (fun c => c.serviceRequirements)) =
          false →
        resolveServiceRequirements parse data = Json.obj []) := by
  refine ⟨fun memos2 => rfl, fun h => by simp [resolveOfferingName, h],
    fun r hr htr => ?_, fun i hi c hctx hph hmin hc hne => ?_,
    fun hnomemo hctx => ?_⟩
  · simp [resolveServiceRequirements, hr, htr]
  · have hfind : data.memos.find?
        (fun m => m.nextPhase == AcpJobPhase.NEGOTIATION) =
        some (data.memos.get ⟨i, hi⟩) := by
      refine find?_of_first_index _ _ i hi ?_ ?_
      · simpa using hph
      · intro j hj hlt
        simpa using hmin j hj hlt
    have hc2 : data.memos[i].content = some c := hc
    simp [resolveServiceRequirements, hctx, hfind, hc2, hne]
  · have hfind : data.memos.find?
        (fun m => m.nextPhase == AcpJobPhase.NEGOTIATION) = none := by
      rw [List.find?_eq_none]
      intro m hm
      simpa using hnomemo m hm
    simp [resolveServiceRequirements, hctx, hfind]

/-- Witness for the amended C7: on the two-memo job event, the name
resolution ignores the memos and the requirements come from the first
NEGOTIATION memo, wrapped raw since parsing fails. -/
theorem requirements_extraction_order_witness :
    resolveOfferingName { dataTwoMemos with memos := [] } =
      resolveOfferingName dataTwoMemos
    ∧ resolveServiceRequirements parse0 dataTwoMemos =
        Json.obj [("raw", Json.str "one")] :=
  ⟨(requirements_extraction_order parse0 dataTwoMemos).1 [],
   (requirements_extraction_order parse0 dataTwoMemos).2.2.2.1 0 (by decide)
      "one" rfl rfl (fun j hj hlt => absurd hlt (Nat.not_lt_zero j)) rfl
      (by decide)⟩

/-- C1 counterexample: for the concrete requiredFunds descriptor and a
module exporting executeJob but no requestAdditionalFunds, resolution
(loadOffering of seller/process-job.ts) succeeds despite the contract
violation, and the violation is then reported as a runtime outcome of
processing the job — a reject naming the missing capability. -/
theorem contract_law_counterexample :
    ProcessJob.loadOffering true true true cfgFunds pjModuleNoFunds =
      Except.ok (cfgFunds, pjHandlersNoFunds)
    ∧ ProcessJob.processJob cfgFunds pjHandlersNoFunds (Json.obj []) =
      [ProcessJob.Action.accept,
       ProcessJob.Action.reject ProcessJob.fundsMissingReason] := by
  exact ⟨rfl, rfl⟩

/-- C1 amended: the contract law is enforced in both directions at
registration time by validateHandlers — with the handlers file present,
executeJob exported and requiredFunds known, the result is valid iff the
requestAdditionalFunds export matches requiredFunds, each direction
reported with its own error.  The job-processing path does not enforce it
at load time: loadOffering checks only the presence of executeJob and
succeeds on a violating module, and processJob re-checks the law at
runtime, rejecting a violating job (after accepting it) with a
violation-naming reason. -/
theorem contract_law_enforcement
    (hasValidate hasFunds requiredFunds : Bool) :
    ((Sell.validateHandlers true true hasValidate hasFunds
        (some requiredFunds)).valid = (hasFunds == requiredFunds))
    ∧ (Sell.errFundsHandlerMissing ∈
        (Sell.validateHandlers true true hasValidate hasFunds
          (some requiredFunds)).errors ↔
        (requiredFunds = true ∧ hasFunds = false))
    ∧ (Sell.errFundsHandlerForbidden ∈
        (Sell.validateHandlers true true hasValidate hasFunds
          (some requiredFunds)).errors ↔
        (requiredFunds = false ∧ hasFunds = true))
    ∧ (∀ (config : OfferingConfig) (m : ProcessJob.HandlerModule)
        (ex : Json → Except String String), m.executeJob = some ex →
        ∃ out, ProcessJob.loadOffering true true true config m =
          Except.ok out)
    ∧ (∀ (config : OfferingConfig) (handlers : ProcessJob.Handlers)
        (req : Json), config.requiredFunds = true →
        handlers.requestAdditionalFunds = none →
        (∀ v, handlers.validateRequirements = some v → v req = true) →
        ProcessJob.processJob config handlers req =
          [ProcessJob.Action.accept,
           ProcessJob.Action.reject ProcessJob.fundsMissingReason])
    ∧ (∀ (config : OfferingConfig) (handlers : ProcessJob.Handlers)
        (req : Json) (rf : Json → FundsRequest),
        config.requiredFunds = false →
        handlers.requestAdditionalFunds = some rf →
        (∀ v, handlers.validateRequirements = some v → v req = true) →
        ProcessJob.processJob config handlers req =
          [ProcessJob.Action.accept,
           ProcessJob.Action.reject ProcessJob.fundsForbiddenReason]) := by
  refine ⟨?_, ?_, ?_, fun config m ex hex => ?_, ?_, ?_⟩
  · cases requiredFunds <;> cases hasFunds <;> rfl
  · cases requiredFunds <;> cases hasFunds <;>
      simp [Sell.validateHandlers, Sell.errFundsHandlerMissing,
        Sell.errFundsHandlerForbidden, Sell.errNoExecuteJob]
  · cases requiredFunds <;> cases hasFunds <;>
      simp [Sell.validateHandlers, Sell.errFundsHandlerMissing,
        Sell.errFundsHandlerForbidden, Sell.errNoExecuteJob]
  · refine ⟨(config,
      { executeJob := ex, validateRequirements := m.validateRequirements,
        requestAdditionalFunds := m.requestAdditionalFunds }), ?_⟩
    simp [ProcessJob.loadOffering, hex]
  · intro config handlers req hcf hrf hval
    cases hv : handlers.validateRequirements with
    | none => simp [ProcessJob.processJob, hv, hcf, hrf]
    | some vf =>
      have := hval vf hv
      simp [ProcessJob.processJob, hv, this, hcf, hrf]
  · intro config handlers req rf hcf hrf hval
    cases hv : handlers.validateRequirements with
    | none => simp [ProcessJob.processJob, hv, hcf, hrf]
    | some vf =>
      have := hval vf hv
      simp [ProcessJob.processJob, hv, this, hcf, hrf]

/-- Witness for the amended C1: a requiredFunds descriptor whose module
lacks requestAdditionalFunds is invalid at registration time, and at
runtime processJob accepts and then rejects the violating job naming the
missing capability. -/
theorem contract_law_enforcement_witness :
    (Sell.validateHandlers true true false false (some true)).valid = false
    ∧ ProcessJob.processJob cfgFunds pjHandlersNoFunds (Json.obj []) =
      [ProcessJob.Action.accept,
       ProcessJob.Action.reject ProcessJob.fundsMissingReason] :=
  ⟨(contract_law_enforcement false false true).1,
   (contract_law_enforcement false false true).2.2.2.2.1 cfgFunds
     pjHandlersNoFunds (Json.obj []) rfl rfl
     (fun v hv => by simp only [pjHandlersNoFunds] at hv; cases hv)⟩

end OpenClawAcp
